import Mathlib

/-!
# Verification of the result-refinement pipeline of `search_planet.py`

The program searches a satellite-image catalog and refines the returned
scene records in three steps (lines 67-85 of `search_planet.py`):

1. keep only records whose footprint polygon `contains` the AOI
   (shapely's DE-9IM `contains`: the AOI must lie inside the footprint
   and intersect its interior; a geometry touching only the boundary is
   *not* contained);
2. sort the survivors by their parsed `acquired` timestamp (Python's
   `sorted` is a stable sort on the timestamp key);
3. walk adjacent pairs of the sorted list: when the gap to the next
   record is strictly less than 300 seconds, append the *earlier* record
   to `to_remove`; finally keep the records `r` with `r not in to_remove`
   (Python `in` compares by value equality).

We embed the records, the three steps, the default-date logic
(lines 49-52), the malformed-record failure behaviour of the same loop,
and the CLI truthiness checks (lines 111-115), and prove or refute the
specified properties.
-/

namespace SearchPlanet

/-- A scene record as the pipeline sees it: a footprint geometry `G`, the
acquisition timestamp (`acquired`, modelled as seconds since an epoch, the
result of `dateutil.parser.parse`), and the rest of the record's fields,
modelled as an opaque `payload`.  Python compares the full dicts with `==`,
which structural `DecidableEq` mirrors. -/
structure SceneRecord (G : Type) where
  geometry : G
  acquired : Int
  payload : Nat
deriving DecidableEq

/-- Lines 69-72: `results = [x for x in response if shape(x['geometry']).contains(aoi)]`.
The geometric predicate is abstracted as `contGeom : G → A → Bool`
(instantiated below with shapely's semantics on rectangles and points). -/
def containFilter {G A : Type} (contGeom : G → A → Bool) (aoi : A)
    (records : List (SceneRecord G)) : List (SceneRecord G) :=
  records.filter (fun x => contGeom x.geometry aoi)

/-- Lines 74-77: sort the surviving records by ascending `acquired`
timestamp; `sorted(..., key=lambda t: t[0])` is a stable sort on the
timestamp key, modelled by `List.mergeSort`. -/
def sortByAcquired {G : Type} (results : List (SceneRecord G)) : List (SceneRecord G) :=
  results.mergeSort (fun a b => decide (a.acquired ≤ b.acquired))

/-- Lines 80-83: for every adjacent pair `(i, i+1)` of the sorted list,
if `dates[i+1] - dates[i] < 300` seconds, append record `i` to `to_remove`. -/
def toRemove {G : Type} : List (SceneRecord G) → List (SceneRecord G)
  | a :: b :: rest =>
      (if b.acquired - a.acquired < 300 then [a] else []) ++ toRemove (b :: rest)
  | _ => []

/-- Line 85: `return [r for r in results if r not in to_remove]`;
Python's `in` tests membership by value equality. -/
def dropRemoved {G : Type} [DecidableEq G]
    (results : List (SceneRecord G)) : List (SceneRecord G) :=
  results.filter (fun r => decide (r ∉ toRemove results))

/-- Lines 67-85: the whole refinement pipeline applied to the records
returned by the remote search. -/
def refine {G A : Type} [DecidableEq G] (contGeom : G → A → Bool) (aoi : A)
    (records : List (SceneRecord G)) : List (SceneRecord G) :=
  dropRemoved (sortByAcquired (containFilter contGeom aoi records))

/-! ## Concrete geometry: shapely `contains` on rectangles and points

The repository feeds shapely an AOI that is either a GeoJSON point or a
rectangle built from a centre and width/height.  We model the footprint as
an axis-aligned rectangle and the AOI as a point, with exact rational
coordinates, and give shapely's documented `contains` semantics:
`a.contains(b)` holds iff no point of `b` lies in the exterior of `a` and
at least one point of the interior of `b` lies in the interior of `a`.
For a point AOI this means the point must lie in the open interior of the
rectangle; a point on the boundary is not contained (shapely's `covers`,
not used by the code, would accept it). -/

/-- An axis-aligned rectangular scene footprint with rational coordinates,
`x1 < x2` and `y1 < y2` being the intended reading. -/
structure GeoRect where
  x1 : ℚ
  x2 : ℚ
  y1 : ℚ
  y2 : ℚ
deriving DecidableEq

/-- A point AOI with rational coordinates. -/
structure GeoPoint where
  x : ℚ
  y : ℚ
deriving DecidableEq

/-- Shapely's `Polygon.contains(Point)` for an axis-aligned rectangle:
true iff the point lies in the open interior of the rectangle.  A point
on an edge or corner of the rectangle is *not* contained. -/
def GeoRect.containsPoint (r : GeoRect) (p : GeoPoint) : Bool :=
  decide (r.x1 < p.x) && decide (p.x < r.x2) &&
  decide (r.y1 < p.y) && decide (p.y < r.y2)

/-! ## Default date range (lines 49-52)

`if end_date is None: end_date = datetime.datetime.now()`
`if start_date is None: start_date = end_date - datetime.timedelta(365)`
`timedelta(365)` is 365 days.  Timestamps are seconds. -/

/-- Seconds in a day. -/
def secondsPerDay : Int := 86400

/-- Lines 49-52: resolve the optional start/end dates against the current
time `now`; an absent end date becomes `now`, an absent start date becomes
365 days before the (resolved) end date. -/
def defaultDates (now : Int) (start_date end_date : Option Int) : Int × Int :=
  let e := end_date.getD now
  let s := start_date.getD (e - 365 * secondsPerDay)
  (s, e)

/-! ## Failure behaviour on malformed records

In the Python code a record is a raw dict: `shapely.geometry.shape(x['geometry'])`
raises on a missing or malformed geometry (line 71, evaluated for *every*
record while filtering), and `dateutil.parser.parse(x['properties']['acquired'])`
raises on a missing or unparseable timestamp (line 75, evaluated only for
the records that *survived* the containment filter).  Nothing is caught, so
the first such record aborts the whole pipeline with no partial result.
We model a raw record with `Option` fields (`none` = missing/malformed) and
the pipeline as an `Except` computation. -/

/-- A raw scene record as returned by the catalog: the geometry and the
acquisition timestamp may each be missing or malformed (`none`). -/
structure RawRecord (G : Type) where
  geometry : Option G
  acquired : Option Int
  payload : Nat
deriving DecidableEq

/-- The single data-error kind of the refinement step. -/
structure MalformedRecord where
deriving DecidableEq

/-- Lines 69-72 with failure: iterate the records in order; for each one,
`shape(x['geometry'])` raises (here: `.error`) when the geometry is
malformed, otherwise the record is kept iff its footprint contains the AOI. -/
def containFilterE {G A : Type} (contGeom : G → A → Bool) (aoi : A) :
    List (RawRecord G) → Except MalformedRecord (List (RawRecord G))
  | [] => .ok []
  | x :: rest =>
      match x.geometry with
      | none => .error {}
      | some g =>
          match containFilterE contGeom aoi rest with
          | .error e => .error e
          | .ok tail => .ok (if contGeom g aoi then x :: tail else tail)

/-- Line 75 with failure: parse the `acquired` timestamp of every record
that survived the containment filter; the first unparseable one raises. -/
def parseDatesE {G : Type} : List (RawRecord G) → Except MalformedRecord (List Int)
  | [] => .ok []
  | x :: rest =>
      match x.acquired with
      | none => .error {}
      | some d =>
          match parseDatesE rest with
          | .error e => .error e
          | .ok tail => .ok (d :: tail)

/-- Dedup marking on (timestamp, record) pairs, as in lines 80-83. -/
def toRemovePairs {G : Type} : List (Int × RawRecord G) → List (RawRecord G)
  | a :: b :: rest =>
      (if b.1 - a.1 < 300 then [a.2] else []) ++ toRemovePairs (b :: rest)
  | _ => []

/-- Lines 67-85 with the failure paths: filter (raising on malformed
geometry), parse the survivors' dates (raising on unparseable timestamps),
sort by date, and drop the near-duplicates by value membership. -/
def refineE {G A : Type} [DecidableEq G] (contGeom : G → A → Bool) (aoi : A)
    (records : List (RawRecord G)) : Except MalformedRecord (List (RawRecord G)) :=
  match containFilterE contGeom aoi records with
  | .error e => .error e
  | .ok results =>
      match parseDatesE results with
      | .error e => .error e
      | .ok dates =>
          let sorted := (dates.zip results).mergeSort (fun a b => decide (a.1 ≤ b.1))
          let rem := toRemovePairs sorted
          .ok ((sorted.map (fun p => p.2)).filter (fun r => decide (r ∉ rem)))

/-- The predicate the containment loop effectively keeps records by, when
no geometry is malformed: a well-formed footprint that contains the AOI. -/
def keepsRecord {G A : Type} (contGeom : G → A → Bool) (aoi : A) (x : RawRecord G) : Bool :=
  match x.geometry with
  | none => false
  | some g => contGeom g aoi

/-! ## CLI argument validation (lines 111-115)

`if not args.geom and (not args.lat or not args.lon): parser.error(...)`
uses Python truthiness: `None` is falsy, and so is the float `0.0`, so a
latitude or longitude of exactly 0 counts as "not given". -/

/-- Python truthiness of an optional float argument: `None` and `0.0` are
falsy, every other number is truthy. -/
def truthyCoord (v : Option ℚ) : Bool :=
  match v with
  | none => false
  | some x => decide (x ≠ 0)

/-- Line 114: the incomplete-arguments usage error fires when no geometry
file was given and `args.lat` or `args.lon` is falsy. -/
def incompleteArgsError (geomGiven : Bool) (lat lon : Option ℚ) : Bool :=
  !geomGiven && (!truthyCoord lat || !truthyCoord lon)

/-- Line 111: the mutual-exclusion usage error fires when a geometry file
was given together with a truthy `args.lat` or `args.lon`. -/
def mutuallyExclusiveError (geomGiven : Bool) (lat lon : Option ℚ) : Bool :=
  geomGiven && (truthyCoord lat || truthyCoord lon)

/-! ## Helper lemmas -/

theorem mem_containFilter {G A : Type} (contGeom : G → A → Bool) (aoi : A)
    (recs : List (SceneRecord G)) (x : SceneRecord G) :
    x ∈ containFilter contGeom aoi recs ↔ x ∈ recs ∧ contGeom x.geometry aoi = true := by
  simp [containFilter, List.mem_filter]

theorem mem_sortByAcquired {G : Type} (l : List (SceneRecord G)) (x : SceneRecord G) :
    x ∈ sortByAcquired l ↔ x ∈ l := by
  simp [sortByAcquired, List.mem_mergeSort]

theorem mem_dropRemoved {G : Type} [DecidableEq G]
    (l : List (SceneRecord G)) (x : SceneRecord G) :
    x ∈ dropRemoved l ↔ x ∈ l ∧ x ∉ toRemove l := by
  simp [dropRemoved, List.mem_filter]

theorem acquired_le_trans {G : Type} (a b c : SceneRecord G)
    (hab : decide (a.acquired ≤ b.acquired) = true)
    (hbc : decide (b.acquired ≤ c.acquired) = true) :
    decide (a.acquired ≤ c.acquired) = true := by
  simp only [decide_eq_true_eq] at *
  omega

theorem acquired_le_total {G : Type} (a b : SceneRecord G) :
    (decide (a.acquired ≤ b.acquired) || decide (b.acquired ≤ a.acquired)) = true := by
  simp only [Bool.or_eq_true, decide_eq_true_eq]
  omega

/-- `mergeSort` leaves an already-sorted list unchanged. -/
theorem sortByAcquired_of_sorted {G : Type} {l : List (SceneRecord G)}
    (h : l.Pairwise (fun a b => a.acquired ≤ b.acquired)) : sortByAcquired l = l := by
  apply List.mergeSort_of_sorted
  exact h.imp (fun hab => decide_eq_true hab)

/-- The sorted survivor list is pairwise nondecreasing in `acquired`. -/
theorem sortByAcquired_sorted {G : Type} (l : List (SceneRecord G)) :
    (sortByAcquired l).Pairwise (fun a b => a.acquired ≤ b.acquired) := by
  have h := List.sorted_mergeSort
    (fun a b c => acquired_le_trans a b c) (fun a b => acquired_le_total a b) l
  exact h.imp (fun hab => of_decide_eq_true hab)

/-- Python's sort is stable; so is `mergeSort`: the records carrying any
fixed timestamp appear in the output in their input order. -/
theorem sortByAcquired_stable {G : Type} (l : List (SceneRecord G)) (t : Int) :
    (sortByAcquired l).filter (fun r => decide (r.acquired = t)) =
      l.filter (fun r => decide (r.acquired = t)) := by
  have hpair : (l.filter (fun r => decide (r.acquired = t))).Pairwise
      (fun a b => decide (a.acquired ≤ b.acquired) = true) := by
    apply List.pairwise_of_forall_mem_list
    intro a ha b hb
    have ha' := List.of_mem_filter ha
    have hb' := List.of_mem_filter hb
    simp only [decide_eq_true_eq] at ha' hb' ⊢
    omega
  have hsub : List.Sublist (l.filter (fun r => decide (r.acquired = t)))
      (sortByAcquired l) := by
    apply List.sublist_mergeSort
      (fun a b c => acquired_le_trans a b c) (fun a b => acquired_le_total a b) hpair
    exact List.filter_sublist l
  have hsub2 : List.Sublist (l.filter (fun r => decide (r.acquired = t)))
      ((sortByAcquired l).filter (fun r => decide (r.acquired = t))) := by
    have := hsub.filter (fun r => decide (r.acquired = t))
    rwa [List.filter_filter, show (fun a : SceneRecord G =>
      decide (a.acquired = t) && decide (a.acquired = t)) =
      (fun a : SceneRecord G => decide (a.acquired = t)) from funext (fun a => Bool.and_self _)]
      at this
  have hperm : List.Perm ((sortByAcquired l).filter (fun r => decide (r.acquired = t)))
      (l.filter (fun r => decide (r.acquired = t))) :=
    (List.mergeSort_perm l _).filter _
  exact (hsub2.eq_of_length hperm.length_eq.symm).symm

/-- Unfolding membership in the full pipeline output. -/
theorem mem_refine {G A : Type} [DecidableEq G] (contGeom : G → A → Bool) (aoi : A)
    (records : List (SceneRecord G)) (r : SceneRecord G) :
    r ∈ refine contGeom aoi records ↔
      r ∈ records ∧ contGeom r.geometry aoi = true ∧
        r ∉ toRemove (sortByAcquired (containFilter contGeom aoi records)) := by
  rw [refine, mem_dropRemoved, mem_sortByAcquired, mem_containFilter]
  tauto

/-- Membership in `to_remove`, characterized by indices: the marked values
are exactly the values sitting at an index `i` whose successor at `i + 1`
is acquired less than 300 seconds later. -/
theorem mem_toRemove_iff {G : Type} :
    ∀ (l : List (SceneRecord G)) (r : SceneRecord G),
      r ∈ toRemove l ↔
        ∃ i s, l[i]? = some r ∧ l[i + 1]? = some s ∧ s.acquired - r.acquired < 300
  | [], r => by
      simp [toRemove]
  | [a], r => by
      constructor
      · intro h
        simp [toRemove] at h
      · rintro ⟨i, s, h1, h2, -⟩
        match i with
        | 0 => simp at h2
        | i + 1 => simp at h1
  | a :: b :: rest, r => by
      have ih := mem_toRemove_iff (b :: rest) r
      constructor
      · intro h
        rw [toRemove] at h
        rcases List.mem_append.mp h with h' | h'
        · by_cases hgap : b.acquired - a.acquired < 300
          · rw [if_pos hgap] at h'
            have hra : r = a := List.mem_singleton.mp h'
            subst hra
            exact ⟨0, b, rfl, by simp, hgap⟩
          · rw [if_neg hgap] at h'
            exact absurd h' (List.not_mem_nil r)
        · rcases ih.mp h' with ⟨i, s, h1, h2, h3⟩
          exact ⟨i + 1, s, by simpa using h1, by simpa using h2, h3⟩
      · rintro ⟨i, s, h1, h2, h3⟩
        rw [toRemove, List.mem_append]
        match i with
        | 0 =>
            simp only [List.getElem?_cons_zero, Option.some.injEq] at h1 h2
            subst h1
            simp only [List.getElem?_cons_succ, List.getElem?_cons_zero,
              Option.some.injEq] at h2
            subst h2
            left
            rw [if_pos h3]
            exact List.mem_singleton.mpr rfl
        | i + 1 =>
            right
            exact ih.mpr ⟨i, s, by simpa using h1, by simpa using h2, h3⟩

/-- Every marked value sits among the first `n - 1` elements: the final
element's *position* is never marked. -/
theorem toRemove_subset_dropLast {G : Type} :
    ∀ (l : List (SceneRecord G)) (x : SceneRecord G), x ∈ toRemove l → x ∈ l.dropLast
  | [], x => by simp [toRemove]
  | [a], x => by simp [toRemove]
  | a :: b :: rest, x => by
      intro h
      rw [toRemove] at h
      rcases List.mem_append.mp h with h' | h'
      · have hxa : x = a := by
          by_cases hgap : b.acquired - a.acquired < 300
          · rw [if_pos hgap] at h'
            exact List.mem_singleton.mp h'
          · rw [if_neg hgap] at h'
            exact absurd h' (List.not_mem_nil x)
        subst hxa
        simp
      · have hx := toRemove_subset_dropLast (b :: rest) x h'
        simp only [List.dropLast_cons₂, List.mem_cons]
        exact Or.inr hx

/-- Key separation lemma: filtering a sorted list by "not a member of `S`",
for any `S` that covers all marked values, leaves adjacent survivors at
least 300 seconds apart.  (An unmarked survivor's immediate successor in
the sorted list is at least 300 seconds later, and later survivors are
later still.) -/
theorem chain_filter_of_sorted {G : Type} [DecidableEq G] :
    ∀ (l S : List (SceneRecord G)),
      l.Pairwise (fun a b => a.acquired ≤ b.acquired) →
      (∀ x ∈ toRemove l, x ∈ S) →
      List.Chain' (fun a b => 300 ≤ b.acquired - a.acquired)
        (l.filter (fun r => decide (r ∉ S)))
  | [], S, _, _ => by simp
  | [a], S, _, _ => by
      by_cases ha : a ∈ S <;> simp [List.filter_cons, ha]
  | a :: b :: rest, S, hsort, hsub => by
      have htail : (b :: rest).Pairwise (fun x y => x.acquired ≤ y.acquired) :=
        (List.pairwise_cons.mp hsort).2
      have hsub' : ∀ x ∈ toRemove (b :: rest), x ∈ S := by
        intro x hx
        apply hsub
        rw [toRemove]
        exact List.mem_append_right _ hx
      have ih := chain_filter_of_sorted (b :: rest) S htail hsub'
      by_cases hgap : b.acquired - a.acquired < 300
      · have haS : a ∈ S := by
          apply hsub
          rw [toRemove]
          apply List.mem_append_left
          rw [if_pos hgap]
          exact List.mem_singleton.mpr rfl
        rw [List.filter_cons, if_neg (by simp [haS])]
        exact ih
      · by_cases haS : a ∈ S
        · rw [List.filter_cons, if_neg (by simp [haS])]
          exact ih
        · rw [List.filter_cons, if_pos (by simp [haS])]
          rw [List.chain'_cons']
          refine ⟨?_, ih⟩
          intro c hc
          have hcmem : c ∈ b :: rest :=
            (List.mem_filter.mp (List.mem_of_mem_head? hc)).1
          have hbc : b.acquired ≤ c.acquired := by
            rcases List.mem_cons.mp hcmem with rfl | hcr
            · exact le_refl _
            · exact (List.pairwise_cons.mp htail).1 c hcr
          omega

/-- A list whose adjacent elements are all at least 300 seconds apart has
nothing marked for removal. -/
theorem toRemove_eq_nil_of_chain {G : Type} :
    ∀ (l : List (SceneRecord G)),
      List.Chain' (fun a b => 300 ≤ b.acquired - a.acquired) l → toRemove l = []
  | [], _ => rfl
  | [_], _ => rfl
  | a :: b :: rest, h => by
      rw [toRemove, if_neg (by have := (List.chain'_cons.mp h).1; omega)]
      simpa using toRemove_eq_nil_of_chain (b :: rest) (List.chain'_cons.mp h).2

/-- The pipeline's output is sorted by `acquired`. -/
theorem refine_pairwise {G A : Type} [DecidableEq G] (contGeom : G → A → Bool)
    (aoi : A) (records : List (SceneRecord G)) :
    (refine contGeom aoi records).Pairwise (fun a b => a.acquired ≤ b.acquired) :=
  (sortByAcquired_sorted (containFilter contGeom aoi records)).filter _

/-- Adjacent records of the pipeline's output are at least 300 seconds
apart. -/
theorem refine_chain {G A : Type} [DecidableEq G] (contGeom : G → A → Bool)
    (aoi : A) (records : List (SceneRecord G)) :
    List.Chain' (fun a b => 300 ≤ b.acquired - a.acquired)
      (refine contGeom aoi records) :=
  chain_filter_of_sorted _ _ (sortByAcquired_sorted _) (fun _ hx => hx)

theorem keepsRecord_eq_true_iff {G A : Type} (contGeom : G → A → Bool) (aoi : A)
    (x : RawRecord G) :
    keepsRecord contGeom aoi x = true ↔
      ∃ g, x.geometry = some g ∧ contGeom g aoi = true := by
  cases hg : x.geometry <;> simp [keepsRecord, hg]

/-- The containment loop raises exactly when some record's geometry is
missing or malformed (it evaluates `shape(x['geometry'])` for every
record, whether or not the record ends up kept). -/
theorem containFilterE_error_iff {G A : Type} (contGeom : G → A → Bool) (aoi : A) :
    ∀ (records : List (RawRecord G)),
      (∃ e, containFilterE contGeom aoi records = Except.error e) ↔
        ∃ x ∈ records, x.geometry = none
  | [] => by simp [containFilterE]
  | x :: rest => by
      have ih := containFilterE_error_iff contGeom aoi rest
      cases hx : x.geometry with
      | none =>
          simp only [containFilterE, hx]
          exact iff_of_true ⟨{}, trivial⟩ ⟨x, List.mem_cons_self x rest, hx⟩
      | some g =>
          cases hrest : containFilterE contGeom aoi rest with
          | error e =>
              refine iff_of_true ⟨e, by simp [containFilterE, hx, hrest]⟩ ?_
              rcases ih.mp ⟨e, hrest⟩ with ⟨y, hy, hyn⟩
              exact ⟨y, List.mem_cons_of_mem x hy, hyn⟩
          | ok tail =>
              refine iff_of_false ?_ ?_
              · rintro ⟨e, he⟩
                simp [containFilterE, hx, hrest] at he
              · rintro ⟨y, hy, hyn⟩
                rcases List.mem_cons.mp hy with rfl | hyr
                · rw [hx] at hyn
                  cases hyn
                · rcases ih.mpr ⟨y, hyr, hyn⟩ with ⟨e, he⟩
                  rw [hrest] at he
                  cases he

/-- When every geometry is well-formed, the containment loop succeeds and
returns exactly the records whose footprint contains the AOI. -/
theorem containFilterE_ok {G A : Type} (contGeom : G → A → Bool) (aoi : A) :
    ∀ (records : List (RawRecord G)),
      (∀ x ∈ records, x.geometry ≠ none) →
      containFilterE contGeom aoi records =
        Except.ok (records.filter (keepsRecord contGeom aoi))
  | [], _ => by simp [containFilterE]
  | x :: rest, h => by
      have ih := containFilterE_ok contGeom aoi rest
        (fun y hy => h y (List.mem_cons_of_mem x hy))
      cases hg : x.geometry with
      | none => exact absurd hg (h x (List.mem_cons_self x rest))
      | some g =>
          simp only [containFilterE, hg, ih, List.filter_cons, keepsRecord]

/-- Parsing the survivors' timestamps raises exactly when one of them has
a missing or unparseable `acquired`. -/
theorem parseDatesE_error_iff {G : Type} :
    ∀ (l : List (RawRecord G)),
      (∃ e, parseDatesE l = Except.error e) ↔ ∃ x ∈ l, x.acquired = none
  | [] => by simp [parseDatesE]
  | x :: rest => by
      have ih := parseDatesE_error_iff (G := G) rest
      cases hx : x.acquired with
      | none =>
          simp only [parseDatesE, hx]
          exact iff_of_true ⟨{}, trivial⟩ ⟨x, List.mem_cons_self x rest, hx⟩
      | some d =>
          cases hrest : parseDatesE rest with
          | error e =>
              refine iff_of_true ⟨e, by simp [parseDatesE, hx, hrest]⟩ ?_
              rcases ih.mp ⟨e, hrest⟩ with ⟨y, hy, hyn⟩
              exact ⟨y, List.mem_cons_of_mem x hy, hyn⟩
          | ok tail =>
              refine iff_of_false ?_ ?_
              · rintro ⟨e, he⟩
                simp [parseDatesE, hx, hrest] at he
              · rintro ⟨y, hy, hyn⟩
                rcases List.mem_cons.mp hy with rfl | hyr
                · rw [hx] at hyn
                  cases hyn
                · rcases ih.mpr ⟨y, hyr, hyn⟩ with ⟨e, he⟩
                  rw [hrest] at he
                  cases he

/-- The full pipeline raises exactly when the containment loop raises or
the date parsing of the survivors raises. -/
theorem refineE_error_iff {G A : Type} [DecidableEq G] (contGeom : G → A → Bool)
    (aoi : A) (records : List (RawRecord G)) :
    (∃ e, refineE contGeom aoi records = Except.error e) ↔
      (∃ e, containFilterE contGeom aoi records = Except.error e) ∨
      (∃ results, containFilterE contGeom aoi records = Except.ok results ∧
        ∃ e, parseDatesE results = Except.error e) := by
  rcases hc : containFilterE contGeom aoi records with e | results
  · simp [refineE, hc]
  · rcases hd : parseDatesE results with e | dates
    · simp [refineE, hc, hd]
    · simp [refineE, hc, hd]

end SearchPlanet

/-! ## C9: which malformed records make the pipeline fail -/

/-- C9 counterexample: a record with an unparseable `acquired` timestamp
whose footprint does *not* contain the AOI is silently dropped by the
containment filter before its timestamp is ever parsed: the pipeline does
not fail, it skips the record and returns the remaining result. -/
theorem C9_counterexample :
    (SearchPlanet.RawRecord.mk (some (SearchPlanet.GeoRect.mk 100 200 100 200)) none 2).acquired
        = none ∧
    SearchPlanet.refineE SearchPlanet.GeoRect.containsPoint (SearchPlanet.GeoPoint.mk 0 0)
        [SearchPlanet.RawRecord.mk (some (SearchPlanet.GeoRect.mk (-10) 10 (-10) 10)) (some 0) 1,
         SearchPlanet.RawRecord.mk (some (SearchPlanet.GeoRect.mk 100 200 100 200)) none 2] =
      Except.ok
        [SearchPlanet.RawRecord.mk (some (SearchPlanet.GeoRect.mk (-10) 10 (-10) 10)) (some 0) 1] := by
  refine ⟨rfl, ?_⟩
  have hcf : SearchPlanet.containFilterE SearchPlanet.GeoRect.containsPoint
      (SearchPlanet.GeoPoint.mk 0 0)
      [SearchPlanet.RawRecord.mk (some (SearchPlanet.GeoRect.mk (-10) 10 (-10) 10)) (some 0) 1,
       SearchPlanet.RawRecord.mk (some (SearchPlanet.GeoRect.mk 100 200 100 200)) none 2] =
      Except.ok
        [SearchPlanet.RawRecord.mk (some (SearchPlanet.GeoRect.mk (-10) 10 (-10) 10)) (some 0) 1] := by
    simp only [SearchPlanet.containFilterE]
    norm_num [SearchPlanet.GeoRect.containsPoint]
  have hpd : SearchPlanet.parseDatesE
      [SearchPlanet.RawRecord.mk (some (SearchPlanet.GeoRect.mk (-10) 10 (-10) 10)) (some 0) 1] =
      Except.ok [(0 : Int)] := by
    simp [SearchPlanet.parseDatesE]
  simp [SearchPlanet.refineE, hcf, hpd, SearchPlanet.toRemovePairs]

/-- C9 amended: the pipeline fails (with the single data-error kind, and
with no partial result) iff some record has a missing/malformed geometry,
or some record whose well-formed footprint contains the AOI has a
missing/unparseable `acquired` timestamp.  A record with a bad timestamp
that fails the containment test is dropped without any error. -/
theorem C9_failure_characterization {G A : Type} [DecidableEq G]
    (contGeom : G → A → Bool) (aoi : A) (records : List (SearchPlanet.RawRecord G)) :
    (∃ e, SearchPlanet.refineE contGeom aoi records = Except.error e) ↔
      (∃ x ∈ records, x.geometry = none) ∨
      (∃ x ∈ records, x.acquired = none ∧
        ∃ g, x.geometry = some g ∧ contGeom g aoi = true) := by
  rw [SearchPlanet.refineE_error_iff]
  by_cases hgeom : ∃ x ∈ records, x.geometry = none
  · refine iff_of_true (Or.inl ((SearchPlanet.containFilterE_error_iff contGeom aoi records).mpr hgeom)) (Or.inl hgeom)
  · have hall : ∀ x ∈ records, x.geometry ≠ none := by
      push_neg at hgeom
      exact hgeom
    have hok := SearchPlanet.containFilterE_ok contGeom aoi records hall
    constructor
    · rintro (⟨e, he⟩ | ⟨results, hres, e, he⟩)
      · rw [hok] at he
        cases he
      · rw [hok] at hres
        injection hres with hres
        subst hres
        rcases (SearchPlanet.parseDatesE_error_iff _).mp ⟨e, he⟩ with ⟨y, hy, hyn⟩
        rcases List.mem_filter.mp hy with ⟨hyr, hyk⟩
        rcases (SearchPlanet.keepsRecord_eq_true_iff contGeom aoi y).mp hyk with ⟨g, hg, hcg⟩
        exact Or.inr ⟨y, hyr, hyn, g, hg, hcg⟩
    · rintro (h | ⟨y, hy, hyn, g, hg, hcg⟩)
      · exact absurd h hgeom
      · refine Or.inr ⟨records.filter (SearchPlanet.keepsRecord contGeom aoi), hok, ?_⟩
        apply (SearchPlanet.parseDatesE_error_iff _).mpr
        refine ⟨y, List.mem_filter.mpr ⟨hy, ?_⟩, hyn⟩
        exact (SearchPlanet.keepsRecord_eq_true_iff contGeom aoi y).mpr ⟨g, hg, hcg⟩

/-! ## C6: the refinement pipeline is idempotent -/

/-- C6: applying the pipeline to its own output (with the same AOI)
returns the output unchanged: every output record still contains the AOI,
the output is already sorted, and no adjacent output records are within
300 seconds of each other, so the second pass marks nothing. -/
theorem C6_refine_idempotent {G A : Type} [DecidableEq G]
    (contGeom : G → A → Bool) (aoi : A)
    (records : List (SearchPlanet.SceneRecord G)) :
    SearchPlanet.refine contGeom aoi (SearchPlanet.refine contGeom aoi records) =
      SearchPlanet.refine contGeom aoi records := by
  have h1 : SearchPlanet.containFilter contGeom aoi
      (SearchPlanet.refine contGeom aoi records) =
      SearchPlanet.refine contGeom aoi records := by
    apply List.filter_eq_self.mpr
    intro x hx
    exact ((SearchPlanet.mem_refine contGeom aoi records x).mp hx).2.1
  have h2 : SearchPlanet.sortByAcquired (SearchPlanet.refine contGeom aoi records) =
      SearchPlanet.refine contGeom aoi records :=
    SearchPlanet.sortByAcquired_of_sorted
      (SearchPlanet.refine_pairwise contGeom aoi records)
  have h3 : SearchPlanet.toRemove (SearchPlanet.refine contGeom aoi records) = [] :=
    SearchPlanet.toRemove_eq_nil_of_chain _
      (SearchPlanet.refine_chain contGeom aoi records)
  rw [SearchPlanet.refine, h1, h2, SearchPlanet.dropRemoved, h3]
  simp

/-! ## C3: the fate of the final record -/

/-- C3 counterexample: two identical surviving records (a non-empty sorted
input).  The earlier copy is marked, and since removal is by value the
final record is removed with it: the output is empty, so the final record
does *not* always appear in the output. -/
theorem C3_counterexample :
    SearchPlanet.GeoRect.containsPoint (SearchPlanet.GeoRect.mk (-10) 10 (-10) 10)
      (SearchPlanet.GeoPoint.mk 0 0) = true ∧
    SearchPlanet.refine SearchPlanet.GeoRect.containsPoint (SearchPlanet.GeoPoint.mk 0 0)
      [SearchPlanet.SceneRecord.mk (SearchPlanet.GeoRect.mk (-10) 10 (-10) 10) 0 1,
       SearchPlanet.SceneRecord.mk (SearchPlanet.GeoRect.mk (-10) 10 (-10) 10) 0 1] = [] := by
  constructor
  · decide
  · rw [SearchPlanet.refine,
      show SearchPlanet.containFilter SearchPlanet.GeoRect.containsPoint
          (SearchPlanet.GeoPoint.mk 0 0)
          [SearchPlanet.SceneRecord.mk (SearchPlanet.GeoRect.mk (-10) 10 (-10) 10) 0 1,
           SearchPlanet.SceneRecord.mk (SearchPlanet.GeoRect.mk (-10) 10 (-10) 10) 0 1] =
          [SearchPlanet.SceneRecord.mk (SearchPlanet.GeoRect.mk (-10) 10 (-10) 10) 0 1,
           SearchPlanet.SceneRecord.mk (SearchPlanet.GeoRect.mk (-10) 10 (-10) 10) 0 1]
        from by decide,
      SearchPlanet.sortByAcquired_of_sorted (by simp)]
    decide

/-- C3 amended: the final record's position is never marked by the
near-duplicate step, and the final record appears in the output whenever
its value differs from every earlier record's value; in particular a
single AOI-containing record is returned unchanged. -/
theorem C3_last_record {G A : Type} [DecidableEq G]
    (contGeom : G → A → Bool) (aoi : A) :
    (∀ (l : List (SearchPlanet.SceneRecord G)) (h : l ≠ [])
        (_hdist : ∀ x ∈ l.dropLast, x ≠ l.getLast h),
      l.getLast h ∉ SearchPlanet.toRemove l ∧
        l.getLast h ∈ SearchPlanet.dropRemoved l) ∧
    (∀ r : SearchPlanet.SceneRecord G, contGeom r.geometry aoi = true →
      SearchPlanet.refine contGeom aoi [r] = [r]) := by
  constructor
  · intro l h hdist
    have hmark : l.getLast h ∉ SearchPlanet.toRemove l := by
      intro hmem
      exact hdist _ (SearchPlanet.toRemove_subset_dropLast l _ hmem) rfl
    refine ⟨hmark, ?_⟩
    rw [SearchPlanet.mem_dropRemoved]
    exact ⟨List.getLast_mem h, hmark⟩
  · intro r hg
    rw [SearchPlanet.refine,
      show SearchPlanet.containFilter contGeom aoi [r] = [r] from by
        simp [SearchPlanet.containFilter, hg],
      SearchPlanet.sortByAcquired_of_sorted (by simp)]
    simp [SearchPlanet.dropRemoved, SearchPlanet.toRemove]

/-- C3 witness: the amended statement applied to a concrete two-record
list with distinct values and to a concrete singleton. -/
theorem C3_witness :
    (SearchPlanet.SceneRecord.mk (SearchPlanet.GeoRect.mk (-10) 10 (-10) 10) 400 2 ∉
        SearchPlanet.toRemove
          [SearchPlanet.SceneRecord.mk (SearchPlanet.GeoRect.mk (-10) 10 (-10) 10) 0 1,
           SearchPlanet.SceneRecord.mk (SearchPlanet.GeoRect.mk (-10) 10 (-10) 10) 400 2] ∧
      SearchPlanet.SceneRecord.mk (SearchPlanet.GeoRect.mk (-10) 10 (-10) 10) 400 2 ∈
        SearchPlanet.dropRemoved
          [SearchPlanet.SceneRecord.mk (SearchPlanet.GeoRect.mk (-10) 10 (-10) 10) 0 1,
           SearchPlanet.SceneRecord.mk (SearchPlanet.GeoRect.mk (-10) 10 (-10) 10) 400 2]) ∧
    SearchPlanet.refine SearchPlanet.GeoRect.containsPoint (SearchPlanet.GeoPoint.mk 0 0)
        [SearchPlanet.SceneRecord.mk (SearchPlanet.GeoRect.mk (-10) 10 (-10) 10) 0 1] =
      [SearchPlanet.SceneRecord.mk (SearchPlanet.GeoRect.mk (-10) 10 (-10) 10) 0 1] := by
  have h := C3_last_record SearchPlanet.GeoRect.containsPoint (SearchPlanet.GeoPoint.mk 0 0)
  exact ⟨h.1 _ (by simp) (by decide), h.2 _ (by decide)⟩

/-! ## C7: removal works by record value, not by position -/

/-- C7: the output excludes every record whose value equals a marked
value, wherever it sits; concretely, with two identical records at `t = 50`
followed by one at `t = 1000`, the earlier copy is marked and *both*
copies disappear — the second copy is excluded even though its own gap to
its successor is 950 seconds. -/
theorem C7_removal_by_value :
    (∀ {G : Type} [DecidableEq G] (l : List (SearchPlanet.SceneRecord G))
        (r : SearchPlanet.SceneRecord G),
      r ∈ SearchPlanet.toRemove l → r ∉ SearchPlanet.dropRemoved l) ∧
    SearchPlanet.refine SearchPlanet.GeoRect.containsPoint (SearchPlanet.GeoPoint.mk 0 0)
        [SearchPlanet.SceneRecord.mk (SearchPlanet.GeoRect.mk (-10) 10 (-10) 10) 50 9,
         SearchPlanet.SceneRecord.mk (SearchPlanet.GeoRect.mk (-10) 10 (-10) 10) 50 9,
         SearchPlanet.SceneRecord.mk (SearchPlanet.GeoRect.mk (-10) 10 (-10) 10) 1000 4] =
      [SearchPlanet.SceneRecord.mk (SearchPlanet.GeoRect.mk (-10) 10 (-10) 10) 1000 4] := by
  constructor
  · intro G _ l r hmem hout
    exact ((SearchPlanet.mem_dropRemoved l r).mp hout).2 hmem
  · rw [SearchPlanet.refine,
      show SearchPlanet.containFilter SearchPlanet.GeoRect.containsPoint
          (SearchPlanet.GeoPoint.mk 0 0)
          [SearchPlanet.SceneRecord.mk (SearchPlanet.GeoRect.mk (-10) 10 (-10) 10) 50 9,
           SearchPlanet.SceneRecord.mk (SearchPlanet.GeoRect.mk (-10) 10 (-10) 10) 50 9,
           SearchPlanet.SceneRecord.mk (SearchPlanet.GeoRect.mk (-10) 10 (-10) 10) 1000 4] =
          [SearchPlanet.SceneRecord.mk (SearchPlanet.GeoRect.mk (-10) 10 (-10) 10) 50 9,
           SearchPlanet.SceneRecord.mk (SearchPlanet.GeoRect.mk (-10) 10 (-10) 10) 50 9,
           SearchPlanet.SceneRecord.mk (SearchPlanet.GeoRect.mk (-10) 10 (-10) 10) 1000 4]
        from by decide,
      SearchPlanet.sortByAcquired_of_sorted (by simp)]
    decide

/-- C7 witness: the general exclusion statement applied to the concrete
marked record of the three-record example. -/
theorem C7_witness :
    SearchPlanet.SceneRecord.mk (SearchPlanet.GeoRect.mk (-10) 10 (-10) 10) 50 9 ∉
      SearchPlanet.dropRemoved
        [SearchPlanet.SceneRecord.mk (SearchPlanet.GeoRect.mk (-10) 10 (-10) 10) 50 9,
         SearchPlanet.SceneRecord.mk (SearchPlanet.GeoRect.mk (-10) 10 (-10) 10) 50 9,
         SearchPlanet.SceneRecord.mk (SearchPlanet.GeoRect.mk (-10) 10 (-10) 10) 1000 4] :=
  C7_removal_by_value.1 _ _ (by decide)

/-! ## C2: the near-duplicate pass marks exactly the close predecessors -/

/-- C2: the near-duplicate pass marks exactly the records at an index `i`
whose gap to the record at `i + 1` is strictly below 300 seconds (the
earlier record of each close pair), and on three AOI-containing records
acquired at `t`, `t + 120` and `t + 400` the pipeline returns only the
`t + 400` record. -/
theorem C2_dedup_marks_close_predecessors {G A : Type} [DecidableEq G]
    (contGeom : G → A → Bool) (aoi : A) (g : G) (t : Int)
    (hg : contGeom g aoi = true) :
    (∀ (l : List (SearchPlanet.SceneRecord G)) (r : SearchPlanet.SceneRecord G),
        r ∈ SearchPlanet.toRemove l ↔
          ∃ i s, l[i]? = some r ∧ l[i + 1]? = some s ∧
            s.acquired - r.acquired < 300) ∧
    SearchPlanet.refine contGeom aoi
        [SearchPlanet.SceneRecord.mk g t 0, SearchPlanet.SceneRecord.mk g (t + 120) 1,
         SearchPlanet.SceneRecord.mk g (t + 400) 2] =
      [SearchPlanet.SceneRecord.mk g (t + 400) 2] := by
  constructor
  · exact fun l r => SearchPlanet.mem_toRemove_iff l r
  · rw [SearchPlanet.refine]
    have hcf : SearchPlanet.containFilter contGeom aoi
        [SearchPlanet.SceneRecord.mk g t 0, SearchPlanet.SceneRecord.mk g (t + 120) 1,
         SearchPlanet.SceneRecord.mk g (t + 400) 2] =
        [SearchPlanet.SceneRecord.mk g t 0, SearchPlanet.SceneRecord.mk g (t + 120) 1,
         SearchPlanet.SceneRecord.mk g (t + 400) 2] := by
      simp [SearchPlanet.containFilter, hg]
    rw [hcf, SearchPlanet.sortByAcquired_of_sorted (by simp [List.pairwise_cons])]
    have htr : SearchPlanet.toRemove
        [SearchPlanet.SceneRecord.mk g t 0, SearchPlanet.SceneRecord.mk g (t + 120) 1,
         SearchPlanet.SceneRecord.mk g (t + 400) 2] =
        [SearchPlanet.SceneRecord.mk g t 0, SearchPlanet.SceneRecord.mk g (t + 120) 1] := by
      simp only [SearchPlanet.toRemove]
      rw [if_pos (by simp), if_pos (by simp)]
      simp
    rw [SearchPlanet.dropRemoved, htr]
    simp [List.filter_cons, SearchPlanet.SceneRecord.mk.injEq]

/-- C2 witness: the scenario instantiated at `t = 0` with a concrete
rectangle footprint and point AOI. -/
theorem C2_witness :
    SearchPlanet.refine SearchPlanet.GeoRect.containsPoint (SearchPlanet.GeoPoint.mk 0 0)
        [SearchPlanet.SceneRecord.mk (SearchPlanet.GeoRect.mk (-10) 10 (-10) 10) 0 0,
         SearchPlanet.SceneRecord.mk (SearchPlanet.GeoRect.mk (-10) 10 (-10) 10) 120 1,
         SearchPlanet.SceneRecord.mk (SearchPlanet.GeoRect.mk (-10) 10 (-10) 10) 400 2] =
      [SearchPlanet.SceneRecord.mk (SearchPlanet.GeoRect.mk (-10) 10 (-10) 10) 400 2] := by
  have h := (C2_dedup_marks_close_predecessors SearchPlanet.GeoRect.containsPoint
    (SearchPlanet.GeoPoint.mk 0 0) (SearchPlanet.GeoRect.mk (-10) 10 (-10) 10) 0
    (by decide)).2
  simpa using h

/-! ## C4: the output is a subset of the input -/

/-- C4: every record of the pipeline's output is one of the input records;
the pipeline only filters and reorders, it synthesizes and mutates nothing
(the embedding is a pure function over the input list). -/
theorem C4_output_subset {G A : Type} [DecidableEq G] (contGeom : G → A → Bool)
    (aoi : A) (records : List (SearchPlanet.SceneRecord G))
    (r : SearchPlanet.SceneRecord G)
    (h : r ∈ SearchPlanet.refine contGeom aoi records) : r ∈ records :=
  ((SearchPlanet.mem_refine contGeom aoi records r).mp h).1

/-- C4 witness: at a concrete three-record input, the record found in the
output is indeed one of the inputs. -/
theorem C4_witness :
    SearchPlanet.SceneRecord.mk (SearchPlanet.GeoRect.mk (-10) 10 (-10) 10) 400 3 ∈
      [SearchPlanet.SceneRecord.mk (SearchPlanet.GeoRect.mk (-10) 10 (-10) 10) 0 1,
       SearchPlanet.SceneRecord.mk (SearchPlanet.GeoRect.mk (-10) 10 (-10) 10) 120 2,
       SearchPlanet.SceneRecord.mk (SearchPlanet.GeoRect.mk (-10) 10 (-10) 10) 400 3] := by
  apply C4_output_subset SearchPlanet.GeoRect.containsPoint (SearchPlanet.GeoPoint.mk 0 0)
  rw [SearchPlanet.mem_refine]
  refine ⟨by decide, by decide, ?_⟩
  rw [SearchPlanet.sortByAcquired_of_sorted (by decide)]
  decide

/-! ## C5: output order and sort stability -/

/-- C5: the output timestamps are nondecreasing, and the sort is stable:
for any timestamp `t`, the records acquired at `t` appear in the sorted
list exactly in their input order (determinism is immediate since the
embedding is a pure function of the input). -/
theorem C5_sorted_and_stable :
    (∀ {G A : Type} [DecidableEq G] (contGeom : G → A → Bool) (aoi : A)
        (records : List (SearchPlanet.SceneRecord G)),
      (SearchPlanet.refine contGeom aoi records).Pairwise
        (fun a b => a.acquired ≤ b.acquired)) ∧
    (∀ {G : Type} (l : List (SearchPlanet.SceneRecord G)) (t : Int),
      (SearchPlanet.sortByAcquired l).filter (fun r => decide (r.acquired = t)) =
        l.filter (fun r => decide (r.acquired = t))) := by
  constructor
  · intro G A _ contGeom aoi records
    have h := SearchPlanet.sortByAcquired_sorted
      (SearchPlanet.containFilter contGeom aoi records)
    exact h.filter _
  · intro G l t
    exact SearchPlanet.sortByAcquired_stable l t

/-! ## C8: default date range -/

/-- C8: when the date range is unspecified, the end date defaults to the
current time and the start date to exactly 365 days before the end date;
when only the start date is unspecified, it defaults to 365 days before
the given end date (lines 49-52). -/
theorem C8_default_dates :
    (∀ now : Int, SearchPlanet.defaultDates now none none =
        (now - 365 * SearchPlanet.secondsPerDay, now)) ∧
    (∀ (now e : Int), SearchPlanet.defaultDates now none (some e) =
        (e - 365 * SearchPlanet.secondsPerDay, e)) ∧
    (∀ (now s e : Int), SearchPlanet.defaultDates now (some s) (some e) = (s, e)) := by
  refine ⟨fun now => rfl, fun now e => rfl, fun now s e => rfl⟩

/-! ## C10: zero coordinates are treated as absent by the CLI check -/

/-- C10: because line 114 tests Python truthiness of the parsed floats, a
latitude of 0 (or a longitude of 0) counts as "not given": with no
geometry file, the incomplete-arguments usage error fires even when both
centre coordinates were supplied. -/
theorem C10_zero_coordinate_usage_error :
    (∀ lon : ℚ, SearchPlanet.incompleteArgsError false (some 0) (some lon) = true) ∧
    (∀ lat : ℚ, SearchPlanet.incompleteArgsError false (some lat) (some 0) = true) := by
  constructor
  · intro lon
    simp [SearchPlanet.incompleteArgsError, SearchPlanet.truthyCoord]
  · intro lat
    simp [SearchPlanet.incompleteArgsError, SearchPlanet.truthyCoord]

/-! ## C1: the containment filter is strict, boundary points are excluded -/

/-- C1 counterexample: a point AOI lying exactly on the boundary of the
scene footprint (here on the left edge of the rectangle) is *not*
retained: the containment filter drops the record, contradicting the
claim that boundary points suffice for retention. -/
theorem C1_counterexample :
    (SearchPlanet.GeoPoint.mk 0 1).x = (SearchPlanet.GeoRect.mk 0 2 0 2).x1 ∧
    (SearchPlanet.GeoRect.mk 0 2 0 2).y1 ≤ (SearchPlanet.GeoPoint.mk 0 1).y ∧
    (SearchPlanet.GeoPoint.mk 0 1).y ≤ (SearchPlanet.GeoRect.mk 0 2 0 2).y2 ∧
    SearchPlanet.containFilter SearchPlanet.GeoRect.containsPoint
      (SearchPlanet.GeoPoint.mk 0 1)
      [SearchPlanet.SceneRecord.mk (SearchPlanet.GeoRect.mk 0 2 0 2) 0 7] = [] := by
  refine ⟨rfl, by norm_num, by norm_num, by decide⟩

/-- C1 amended: the containment filter retains a record iff the record's
footprint contains the AOI in shapely's strict DE-9IM sense; for a point
AOI this means the point lies strictly inside the rectangle, so a point
AOI on the footprint boundary is *not* retained. -/
theorem C1_containment_filter_strict (aoi : SearchPlanet.GeoPoint)
    (recs : List (SearchPlanet.SceneRecord SearchPlanet.GeoRect))
    (x : SearchPlanet.SceneRecord SearchPlanet.GeoRect) :
    x ∈ SearchPlanet.containFilter SearchPlanet.GeoRect.containsPoint aoi recs ↔
      x ∈ recs ∧ (x.geometry.x1 < aoi.x ∧ aoi.x < x.geometry.x2 ∧
                  x.geometry.y1 < aoi.y ∧ aoi.y < x.geometry.y2) := by
  rw [SearchPlanet.mem_containFilter]
  simp [SearchPlanet.GeoRect.containsPoint, and_assoc]
